import Mathlib

/-!
# A shallow embedding of the `nawi` script-context reconstruction tool

`nawi` rebuilds the on-chain Plutus script context for one redeemer of a
Cardano transaction.  This file embeds the three source files
(`src/main.rs`, `src/blockfrost.rs`, `src/formatter.rs`) as Lean
definitions and proves properties about the pipeline: datum resolution,
redeemer selection, version dispatch, UTxO resolution and the two
renderers.

External collaborators (the `amaru_kernel`/`amaru_plutus` crates, the
Blockfrost HTTP client, the CBOR codec) are modeled as fields of a
`World` structure: pure functions standing for the external calls, so
that theorems quantify over every possible behavior of those
collaborators.
-/

namespace Nawi

/-- Byte strings (`Vec<u8>`, hashes, asset names) as lists of naturals. -/
abbrev Bytes := List Nat

/-- An `anyhow` error is modeled as its context chain: the outermost
context message first, followed by the messages of the causes it wraps. -/
abbrev Err := List String

/-- The two lowercase hex digits of one byte, as produced by `hex::encode`. -/
def byte_hex_chars (b : Nat) : List Char :=
  [Nat.digitChar (b / 16 % 16), Nat.digitChar (b % 16)]

/-- `hex::encode` (external `hex` crate): lowercase hex of a byte string. -/
def hex_encode (bs : Bytes) : String :=
  String.mk (bs.map byte_hex_chars).flatten

/-- Value of a single hex digit, as accepted by `hex::decode`. -/
def hex_char_val (c : Char) : Option Nat :=
  if '0' ≤ c ∧ c ≤ '9' then some (c.toNat - 48)
  else if 'a' ≤ c ∧ c ≤ 'f' then some (c.toNat - 87)
  else if 'A' ≤ c ∧ c ≤ 'F' then some (c.toNat - 55)
  else none

/-- `hex::decode` over a character list: consumes pairs of hex digits. -/
def hex_decode_chars : List Char → Option Bytes
  | [] => some []
  | [_] => none
  | h :: l :: rest =>
    match hex_char_val h, hex_char_val l, hex_decode_chars rest with
    | some hv, some lv, some bs => some ((16 * hv + lv) :: bs)
    | _, _, _ => none

/-- `hex::decode` (external `hex` crate). -/
def hex_decode (s : String) : Option Bytes := hex_decode_chars s.data

/-- Whether a byte is a UTF-8 continuation byte (`0x80..0xBF`). -/
def utf8_cont (b : Nat) : Bool := 128 ≤ b && b < 192

/-- `String::from_utf8` (Rust standard library, external to the repository):
strict UTF-8 validation and decoding; rejects stray continuation bytes,
overlong encodings, surrogates and out-of-range scalar values. -/
def utf8_decode : List Nat → Option (List Char)
  | [] => some []
  | b :: rest =>
    if b < 128 then
      match utf8_decode rest with
      | some cs => some (Char.ofNat b :: cs)
      | none => none
    else if b < 194 then none
    else if b < 224 then
      match rest with
      | c1 :: rest2 =>
        if utf8_cont c1 then
          match utf8_decode rest2 with
          | some cs => some (Char.ofNat ((b - 192) * 64 + (c1 - 128)) :: cs)
          | none => none
        else none
      | [] => none
    else if b < 240 then
      match rest with
      | c1 :: c2 :: rest3 =>
        if utf8_cont c1 && utf8_cont c2
            && (decide (b ≠ 224) || decide (160 ≤ c1))
            && (decide (b ≠ 237) || decide (c1 < 160)) then
          match utf8_decode rest3 with
          | some cs =>
            some (Char.ofNat ((b - 224) * 4096 + (c1 - 128) * 64 + (c2 - 128)) :: cs)
          | none => none
        else none
      | _ => none
    else if b < 245 then
      match rest with
      | c1 :: c2 :: c3 :: rest4 =>
        if utf8_cont c1 && utf8_cont c2 && utf8_cont c3
            && (decide (b ≠ 240) || decide (144 ≤ c1))
            && (decide (b ≠ 244) || decide (c1 < 144)) then
          match utf8_decode rest4 with
          | some cs =>
            some (Char.ofNat ((b - 240) * 262144 + (c1 - 128) * 4096
              + (c2 - 128) * 64 + (c3 - 128)) :: cs)
          | none => none
        else none
      | _ => none
    else none

/-- `str::repeat`, as in `"=".repeat(80)` and `"  ".repeat(indent)`. -/
def str_repeat (s : String) (n : Nat) : String :=
  String.join (List.replicate n s)

/-- `Vec::<String>::join(sep)`. -/
def join_sep (sep : String) : List String → String
  | [] => ""
  | [s] => s
  | s :: rest => s ++ sep ++ join_sep sep rest

/-- `amaru_kernel::TransactionInput` (via pallas): a source-transaction id
(32-byte hash in the source) and an output index. -/
structure TransactionInput where
  transaction_id : Bytes
  index : Nat
  deriving DecidableEq

/-- `amaru_kernel::BigInt` (pallas): small integer or big-endian bignum bytes. -/
inductive BigIntD where
  | int : Int → BigIntD
  | bigUInt : Bytes → BigIntD
  | bigNInt : Bytes → BigIntD

/-- `amaru_kernel::PlutusData` (pallas): the Plutus structured-data tree.
`constr` carries the constructor tag (the only constructor field the
formatter inspects) and the ordered field list. -/
inductive PlutusData where
  | constr : Nat → List PlutusData → PlutusData
  | map : List (PlutusData × PlutusData) → PlutusData
  | array : List PlutusData → PlutusData
  | bigInt : BigIntD → PlutusData
  | boundedBytes : Bytes → PlutusData

/-- `amaru_kernel::MemoizedDatum`: the three-way datum classification of a
resolved output (absent / hash-only / inline). -/
inductive MemoizedDatum where
  | none
  | hash : Bytes → MemoizedDatum
  | inline : PlutusData → MemoizedDatum

/-- `amaru_kernel::MemoizedTransactionOutput` (external): the resolved
output a transaction input points to — address, multi-asset value,
optional datum, optional attached script. -/
structure MemoizedTransactionOutput where
  address : Bytes
  value : List (Bytes × List (Bytes × Int))
  datum : MemoizedDatum
  script : Option Bytes

/-- A raw (not yet memoized) transaction output as decoded by the external
CBOR codec; its contents are only ever handed to the external
`MemoizedTransactionOutput::try_from` conversion, so it is modeled as its
undecoded byte payload. -/
structure RawOutput where
  bytes : Bytes

/-- `amaru_kernel::ScriptPurpose` (the redeemer tag). -/
inductive ScriptPurpose where
  | spend | mint | cert | reward | vote | propose
  deriving DecidableEq

/-- Declared execution-cost budget of a redeemer. -/
structure ExUnits where
  mem : Nat
  steps : Nat

/-- `amaru_kernel::Redeemer`: purpose tag, purpose-index, attached data and
cost budget. -/
structure Redeemer where
  tag : ScriptPurpose
  index : Nat
  data : PlutusData
  ex_units : ExUnits

/-- The fields of `MintedTx::transaction_body` the embedded code reads. -/
structure TransactionBody where
  inputs : List TransactionInput
  reference_inputs : Option (List TransactionInput)
  outputs : List RawOutput

/-- The fields of `MintedTx::transaction_witness_set` the embedded code
reads: the optional raw redeemer list. -/
structure TransactionWitnessSet where
  redeemer : Option (List Redeemer)

/-- `amaru_kernel::MintedTx`: a decoded Cardano transaction. -/
structure MintedTx where
  transaction_body : TransactionBody
  transaction_witness_set : TransactionWitnessSet

/-- The `BTreeMap<TransactionInput, MemoizedTransactionOutput>` UTxO set,
modeled as an association list with key-replacing insertion. -/
abbrev UtxoMap := List (TransactionInput × MemoizedTransactionOutput)

/-- `BTreeMap::get`. -/
def map_lookup (m : UtxoMap) (k : TransactionInput) :
    Option MemoizedTransactionOutput :=
  (m.find? (fun p => p.1 == k)).map (fun p => p.2)

/-- One `BTreeMap` insertion as performed by `collect()`: a binding for an
existing key replaces the stored value, otherwise the binding is added. -/
def map_insert (m : UtxoMap) (k : TransactionInput)
    (v : MemoizedTransactionOutput) : UtxoMap :=
  if k ∈ m.map Prod.fst then
    m.map (fun p => if p.1 = k then (k, v) else p)
  else m ++ [(k, v)]

/-- `collect::<BTreeMap<_, _>>()` over a list of key-value pairs. -/
def map_from_list (l : List (TransactionInput × MemoizedTransactionOutput)) :
    UtxoMap :=
  l.foldl (fun m p => map_insert m p.1 p.2) []

/-- The keys of the modeled `BTreeMap`. -/
def map_keys (m : UtxoMap) : List TransactionInput := m.map Prod.fst

/-- `TxInfoV1` (external `amaru_plutus` type): no claim inspects its
fields, so it is modeled as an opaque payload produced by the external
constructor. -/
structure TxInfoV1 where
  info : PlutusData

/-- `ScriptContextV1` (external `amaru_plutus` type). -/
structure ScriptContextV1 where
  tx_info : TxInfoV1
  redeemer : Redeemer

/-- One entry of `TxInfoV3.inputs`: a transaction input together with its
resolved output. -/
structure OutputRef where
  input : TransactionInput
  output : MemoizedTransactionOutput

/-- `TxInfoV3` (external `amaru_plutus` type), restricted to the field the
in-repository code (`formatter.rs::format_script_info`) inspects. -/
structure TxInfoV3 where
  inputs : List OutputRef

/-- `v3::ScriptContext` (external `amaru_plutus` type), restricted to the
fields the in-repository formatter reads. -/
structure ScriptContextV3 where
  tx_info : TxInfoV3
  redeemer : Redeemer

/-- The external collaborators of the core, as pure functions:
the Blockfrost API (`transactions_cbor`), the CBOR codec, the
`MemoizedTransactionOutput::try_from` conversion and the `amaru_plutus`
context constructors/serializers. -/
structure World where
  transactions_cbor : String → Except Err String
  cbor_decode_tx : Bytes → Except Err MintedTx
  memoize : RawOutput → Except String MemoizedTransactionOutput
  tx_info_v1_new :
    TransactionBody → TransactionWitnessSet → UtxoMap → Nat → Except Err TxInfoV1
  script_context_v1_new : TxInfoV1 → Redeemer → Except Err ScriptContextV1
  format_readable_v1 : ScriptContextV1 → String
  to_plutus_data_v1 : ScriptContextV1 → PlutusData
  tx_info_v3_new :
    TransactionBody → TransactionWitnessSet → UtxoMap → Nat → Except Err TxInfoV3
  script_context_v3_new :
    TxInfoV3 → Redeemer → Option PlutusData → Except Err ScriptContextV3
  tx_info_v3_format_readable : TxInfoV3 → String
  to_plutus_data_v3 : ScriptContextV3 → PlutusData

/-- main.rs `collect_all_inputs` (lines 191-201): the transaction's spent
inputs followed by its reference inputs. -/
def collect_all_inputs (transaction : MintedTx) : List TransactionInput :=
  let regular_inputs := transaction.transaction_body.inputs
  let ref_inputs := (transaction.transaction_body.reference_inputs).getD []
  regular_inputs ++ ref_inputs

/-- Rank of a purpose tag in the protocol's canonical redeemer ordering. -/
def tag_rank : ScriptPurpose → Nat
  | .spend => 0 | .mint => 1 | .cert => 2 | .reward => 3 | .vote => 4 | .propose => 5

/-- The canonical sort key of a redeemer: (purpose tag, purpose-index). -/
def redeemer_key (r : Redeemer) : Nat × Nat := (tag_rank r.tag, r.index)

/-- Lexicographic comparison of redeemer keys. -/
def key_le (a b : Nat × Nat) : Bool :=
  decide (a.1 < b.1) || (decide (a.1 = b.1) && decide (a.2 ≤ b.2))

/-- Ordered insertion for the canonical redeemer sort. -/
def insert_by_key (r : Redeemer) : List Redeemer → List Redeemer
  | [] => [r]
  | x :: xs =>
    if key_le (redeemer_key r) (redeemer_key x) then r :: x :: xs
    else x :: insert_by_key r xs

/-- Keep the first redeemer of each (tag, index) key. -/
def dedup_key_go (seen : List (Nat × Nat)) : List Redeemer → List Redeemer
  | [] => []
  | r :: rest =>
    if redeemer_key r ∈ seen then dedup_key_go seen rest
    else r :: dedup_key_go (redeemer_key r :: seen) rest

/-- Modelled from the spec: `normalize_redeemers` is provided by the
external `amaru_kernel` crate; its body is not part of this repository's
`src/`.  Spec §4.2: produce the canonical ordered sequence, ordered by
(purpose tag, purpose-index); §3: the normalizer reorders/deduplicates
entries but does not alter field values.  Modeled as an insertion sort by
that key followed by removal of duplicate keys. -/
def normalize_redeemers (rs : List Redeemer) : List Redeemer :=
  dedup_key_go [] (rs.foldr insert_by_key [])

/-- main.rs `get_redeemers` (lines 203-211): the normalized redeemer list,
or the distinct no-redeemers error when the witness set carries none. -/
def get_redeemers (transaction : MintedTx) : Except Err (List Redeemer) :=
  match transaction.transaction_witness_set.redeemer with
  | none => .error ["Transaction contains no redeemers"]
  | some rs => .ok (normalize_redeemers rs)

/-- main.rs lines 135-141: select the redeemer at the caller's index, or
fail reporting the requested index and the available count. -/
def select_redeemer (redeemers : List Redeemer) (idx : Nat) :
    Except Err Redeemer :=
  match redeemers.get? idx with
  | some r => .ok r
  | none =>
    .error ["Invalid redeemer index " ++ toString idx ++ ". Transaction has "
      ++ toString redeemers.length ++ " redeemer(s)"]

/-- main.rs `extract_datum` (lines 213-239): the spending datum for a
Spend-purpose redeemer, `none` otherwise. -/
def extract_datum (transaction : MintedTx) (utxos : UtxoMap)
    (redeemer : Redeemer) : Except Err (Option PlutusData) :=
  if redeemer.tag ≠ ScriptPurpose.spend then .ok none
  else
    match transaction.transaction_body.inputs.get? redeemer.index with
    | none => .error ["Invalid redeemer index for spending input"]
    | some input =>
      match map_lookup utxos input with
      | none => .error ["Missing UTxO for spending input"]
      | some utxo =>
        .ok (match utxo.datum with
          | .none => none
          | .hash h => some (.boundedBytes h)
          | .inline plutus_data => some plutus_data)

/-- blockfrost.rs `fetch_utxo` (lines 52-88): fetch the transaction a given
input references, decode it, pick the output at the input's index and
memoize it. -/
def fetch_utxo (w : World) (input : TransactionInput) :
    Except Err (TransactionInput × MemoizedTransactionOutput) :=
  let tx_hash := hex_encode input.transaction_id
  match w.transactions_cbor tx_hash with
  | .error e => .error (("Failed to fetch transaction " ++ tx_hash) :: e)
  | .ok response_cbor =>
    match hex_decode response_cbor with
    | none => .error ["Invalid CBOR hex from Blockfrost for tranasction " ++ tx_hash]
    | some cbor_bytes =>
      match w.cbor_decode_tx cbor_bytes with
      | .error e => .error (("Failed to decode transaction CBOR for " ++ tx_hash) :: e)
      | .ok transaction =>
        match transaction.transaction_body.outputs.get? input.index with
        | none =>
          .error ["Invalid output index " ++ toString input.index
            ++ " for transaction " ++ tx_hash ++ ". Transaction has "
            ++ toString transaction.transaction_body.outputs.length ++ " output(s)"]
        | some output =>
          match w.memoize output with
          | .error e => .error ["Failed to convert output to memoized format: " ++ e]
          | .ok memoized_output => .ok (input, memoized_output)

/-- `futures::future::try_join_all` over the `fetch_utxo` futures:
all results, in input order, or the error of a failing lookup. -/
def try_join_all_fetch (w : World) :
    List TransactionInput →
    Except Err (List (TransactionInput × MemoizedTransactionOutput))
  | [] => .ok []
  | i :: rest =>
    match fetch_utxo w i with
    | .error e => .error e
    | .ok p =>
      match try_join_all_fetch w rest with
      | .error e => .error e
      | .ok ps => .ok (p :: ps)

/-- blockfrost.rs `get_utxos` (lines 39-50). -/
def get_utxos (w : World) (inputs : List TransactionInput) :
    Except Err UtxoMap :=
  match try_join_all_fetch w inputs with
  | .error e => .error ("Failed to fetch UTxOs from Blockfrost" :: e)
  | .ok results => .ok (map_from_list results)

/-- The Blockfrost requests `get_utxos` issues: line 43 maps `fetch_utxo`
over `inputs` without deduplication, and each `fetch_utxo` performs exactly
one `transactions_cbor` call keyed by the hex transaction id (lines 56-62),
so one request is issued per list element. -/
def get_utxos_requests (inputs : List TransactionInput) : List String :=
  inputs.map (fun input => hex_encode input.transaction_id)

/-- main.rs `PlutusVersion`. -/
inductive PlutusVersion where
  | plutusV1 | plutusV2 | plutusV3

/-- The derived `Debug` rendering of the kernel purpose tag, used by the
`{:?}` format in formatter.rs line 21. -/
def purpose_debug : ScriptPurpose → String
  | .spend => "Spend" | .mint => "Mint" | .cert => "Cert"
  | .reward => "Reward" | .vote => "Vote" | .propose => "Propose"

/-- formatter.rs `TransactionInput::format_readable` (lines 133-141). -/
def transaction_input_format_readable (i : TransactionInput) : String :=
  hex_encode i.transaction_id ++ "#" ++ toString i.index

/-- formatter.rs `format_script_info` (lines 355-381): the purpose-specific
summary; an out-of-range spending index renders a placeholder instead of
failing. -/
def format_script_info (ctx : ScriptContextV3) : String :=
  match ctx.redeemer.tag with
  | .spend =>
    match ctx.tx_info.inputs.get? ctx.redeemer.index with
    | some input_idx =>
      "  Type: Spending\n  Input: "
        ++ transaction_input_format_readable input_idx.input ++ "\n"
    | none =>
      "  Type: Spending\n  Input: Invalid index "
        ++ toString ctx.redeemer.index ++ "\n"
  | .mint => "  Type: Minting\n  Policy Index: " ++ toString ctx.redeemer.index ++ "\n"
  | .cert =>
    "  Type: Certificate\n  Certificate Index: " ++ toString ctx.redeemer.index ++ "\n"
  | .reward =>
    "  Type: Withdrawal\n  Withdrawal Index: " ++ toString ctx.redeemer.index ++ "\n"
  | _ => "  Type: Unknown\n"

/-- formatter.rs `ScriptContextV3::format_readable` (lines 17-31); the
transaction-info body (lines 33-131) renders fields of the external
`TxInfoV3` that are not modeled here and is taken from the environment. -/
def script_context_v3_format_readable (w : World) (ctx : ScriptContextV3) : String :=
  let separator := str_repeat "=" 80
  "\n" ++ separator ++ "\nScript Context (Plutus V3)\n" ++ separator
    ++ "\n\nTransaction Info:\n" ++ w.tx_info_v3_format_readable ctx.tx_info
    ++ "\nRedeemer:\n  Purpose: " ++ purpose_debug ctx.redeemer.tag
    ++ "\n  Index: " ++ toString ctx.redeemer.index
    ++ "\n\nScript Info:\n" ++ format_script_info ctx
    ++ "\n" ++ separator ++ "\n"

/-- main.rs `build_script_context` (lines 241-293): version dispatch. -/
def build_script_context (w : World) (version : PlutusVersion)
    (transaction : MintedTx) (utxos : UtxoMap) (redeemer : Redeemer)
    (slot : Nat) : Except Err (String × PlutusData) :=
  match version with
  | .plutusV1 =>
    match w.tx_info_v1_new transaction.transaction_body
        transaction.transaction_witness_set utxos slot with
    | .error e => .error e
    | .ok tx_info =>
      match w.script_context_v1_new tx_info redeemer with
      | .error e => .error ("Failed to construct PlutusV1 script context" :: e)
      | .ok script_context =>
        .ok (w.format_readable_v1 script_context, w.to_plutus_data_v1 script_context)
  | .plutusV2 => .error ["PlutusV2 is not yet implemented"]
  | .plutusV3 =>
    match extract_datum transaction utxos redeemer with
    | .error e => .error e
    | .ok datum =>
      match w.tx_info_v3_new transaction.transaction_body
          transaction.transaction_witness_set utxos slot with
      | .error e => .error e
      | .ok tx_info =>
        match w.script_context_v3_new tx_info redeemer datum with
        | .error e => .error ("Failed to construct PlutusV3 script context" :: e)
        | .ok context =>
          .ok (script_context_v3_format_readable w context,
            w.to_plutus_data_v3 context)

/-- main.rs `decode_transaction` (lines 185-189). -/
def decode_transaction (w : World) (tx_bytes : Bytes) : Except Err MintedTx :=
  match w.cbor_decode_tx tx_bytes with
  | .error e =>
    .error ("Failed to decode transaction. Ensure the CBOR data is a valid Cardano transaction" :: e)
  | .ok t => .ok t

/-- main.rs `main` (lines 121-161), from transaction bytes to the two
rendered artifacts; every stage failure aborts the run. -/
def run_pipeline (w : World) (version : PlutusVersion) (tx_bytes : Bytes)
    (redeemer_idx : Nat) (slot : Nat) : Except Err (String × PlutusData) :=
  match decode_transaction w tx_bytes with
  | .error e => .error e
  | .ok transaction =>
    match get_utxos w (collect_all_inputs transaction) with
    | .error e => .error e
    | .ok utxos =>
      match get_redeemers transaction with
      | .error e => .error e
      | .ok redeemers =>
        match select_redeemer redeemers redeemer_idx with
        | .error e => .error e
        | .ok redeemer =>
          build_script_context w version transaction utxos redeemer slot

/-- What main prints (lines 152-159): the artifacts on success, nothing on
failure (the process exits non-zero without emitting output). -/
def main_output (w : World) (version : PlutusVersion) (tx_bytes : Bytes)
    (redeemer_idx : Nat) (slot : Nat) : Option (String × PlutusData) :=
  (run_pipeline w version tx_bytes redeemer_idx slot).toOption

/-- `str::trim_end` (Rust standard library): drop trailing whitespace. -/
def str_trim_end (s : String) : String :=
  String.mk (s.data.reverse.dropWhile Char.isWhitespace).reverse

/-- `str::trim` (Rust standard library): drop leading and trailing
whitespace. -/
def str_trim (s : String) : String :=
  String.mk
    ((s.data.dropWhile Char.isWhitespace).reverse.dropWhile Char.isWhitespace).reverse

/-- formatter.rs `is_simple` (lines 660-667): a leaf integer/byte-string or
an empty constructor/map/array. -/
def is_simple : PlutusData → Bool
  | .bigInt _ => true
  | .boundedBytes _ => true
  | .constr _ fields => fields.isEmpty
  | .map pairs => pairs.isEmpty
  | .array arr => arr.isEmpty

/-- formatter.rs `format_plutus_data`, BigInt arm (lines 645-653); note the
source's swapped BigInt/BigUInt labels are kept as written. -/
def format_big_int : BigIntD → String
  | .int i => "Int(" ++ toString i ++ ")"
  | .bigUInt bs => "BigInt(+0x" ++ hex_encode bs ++ ")"
  | .bigNInt bs => "BigUInt(-0x" ++ hex_encode bs ++ ")"

mutual

/-- formatter.rs `format_plutus_data` (lines 576-658): the recursive Plutus
data renderer with its compactness heuristic. -/
def format_plutus_data (data : PlutusData) (indent : Nat) : String :=
  let indent_str := str_repeat "  " indent
  let next_indent_str := str_repeat "  " (indent + 1)
  match data with
  | .constr tag fields =>
    match fields with
    | [] => "Constr(" ++ toString tag ++ ", [])"
    | f :: rest =>
      if rest.isEmpty && is_simple f then
        "Constr(" ++ toString tag ++ ", [" ++ format_plutus_data f 0 ++ "])"
      else
        "Constr(" ++ toString tag ++ ", [\n"
          ++ join_sep ",\n"
            ((format_fields (f :: rest) (indent + 1)).map (fun s => next_indent_str ++ s))
          ++ "\n" ++ indent_str ++ "])"
  | .map pairs =>
    match pairs with
    | [] => "Map(\x7b\x7d)"
    | p :: rest =>
      if rest.isEmpty && (is_simple p.1 && is_simple p.2) then
        "Map(\x7b " ++ format_plutus_data p.1 0 ++ " => "
          ++ format_plutus_data p.2 0 ++ " \x7d)"
      else
        "Map(\x7b\n"
          ++ join_sep ",\n"
            ((format_pairs (p :: rest) (indent + 1)).map
              (fun q => next_indent_str ++ q.1 ++ " =>\n" ++ next_indent_str ++ q.2))
          ++ "\n" ++ indent_str ++ "\x7d)"
  | .array arr =>
    match arr with
    | [] => "[]"
    | a :: rest =>
      if decide ((a :: rest).length ≤ 3) && (a :: rest).all is_simple then
        "[" ++ join_sep ", " (format_fields (a :: rest) 0) ++ "]"
      else
        "[\n"
          ++ join_sep ",\n"
            ((format_fields (a :: rest) (indent + 1)).map (fun s => next_indent_str ++ s))
          ++ "\n" ++ indent_str ++ "]"
  | .bigInt int => format_big_int int
  | .boundedBytes bytes => "Bytes(0x" ++ hex_encode bytes ++ ")"

/-- The element-wise recursion of `format_plutus_data` over a field list
(the `.iter().map(...)` calls of the source). -/
def format_fields (l : List PlutusData) (indent : Nat) : List String :=
  match l with
  | [] => []
  | x :: xs => format_plutus_data x indent :: format_fields xs indent

/-- The element-wise recursion of `format_plutus_data` over map pairs. -/
def format_pairs (l : List (PlutusData × PlutusData)) (indent : Nat) :
    List (String × String) :=
  match l with
  | [] => []
  | q :: qs =>
    (format_plutus_data q.1 indent, format_plutus_data q.2 indent) :: format_pairs qs indent

end

/-- Spec-side characterization (for the compactness-heuristic claim): the
node shapes that the amended claim says render inline — leaves, empty
structures, single-field constructors with a simple field, single-pair maps
with simple key and value, and arrays of at most three simple elements. -/
def inline_form : PlutusData → Bool
  | .bigInt _ => true
  | .boundedBytes _ => true
  | .constr _ [] => true
  | .constr _ [f] => is_simple f
  | .constr _ _ => false
  | .map [] => true
  | .map [p] => is_simple p.1 && is_simple p.2
  | .map _ => false
  | .array arr => decide (arr.length ≤ 3) && arr.all is_simple

/-- formatter.rs `AssetName::format_readable` (lines 336-347): trimmed
UTF-8 text when the name decodes cleanly, hex otherwise, a placeholder
when empty. -/
def asset_name_format_readable (name : Bytes) : String :=
  if name.isEmpty then "<empty>"
  else
    match utf8_decode name with
    | some cs => str_trim (String.mk cs)
    | none => hex_encode name

/-- formatter.rs line 201: the assets of one policy with strictly positive
minted quantity. -/
def minting_assets (asset_map : List (Bytes × Int)) : List (Bytes × Int) :=
  asset_map.filter (fun q => decide (0 < q.2))

/-- formatter.rs line 202: the assets of one policy with strictly negative
minted quantity. -/
def burning_assets (asset_map : List (Bytes × Int)) : List (Bytes × Int) :=
  asset_map.filter (fun q => decide (q.2 < 0))

/-- formatter.rs lines 206-211: one line of the "Minting" sub-list, with
its leading `+`. -/
def mint_asset_line_minting (q : Bytes × Int) : String :=
  "      " ++ asset_name_format_readable q.1 ++ ": +" ++ toString q.2 ++ "\n"

/-- formatter.rs lines 216-222: one line of the "Burning" sub-list. -/
def mint_asset_line_burning (q : Bytes × Int) : String :=
  "      " ++ asset_name_format_readable q.1 ++ ": " ++ toString q.2 ++ "\n"

/-- formatter.rs lines 198-225: the loop body of `Mint::format_readable`
for one policy — the policy line, then the "Minting" sub-list (assets with
positive quantity), then the "Burning" sub-list (assets with negative
quantity). -/
def mint_policy_block (pol : Bytes × List (Bytes × Int)) : String :=
  let minting := minting_assets pol.2
  let burning := burning_assets pol.2
  "  Policy: " ++ hex_encode pol.1 ++ "\n"
    ++ (if minting.isEmpty then ""
        else "    Minting:\n" ++ String.join (minting.map mint_asset_line_minting))
    ++ (if burning.isEmpty then ""
        else "    Burning:\n" ++ String.join (burning.map mint_asset_line_burning))

/-- formatter.rs `Mint::format_readable` (lines 189-228). -/
def mint_format_readable (mint : List (Bytes × List (Bytes × Int))) : String :=
  if mint.isEmpty then "(none)"
  else
    str_trim_end
      (mint.foldl (fun acc pol => acc ++ mint_policy_block pol)
        ("Policies: " ++ toString mint.length ++ "\n"))

/-- `list_starts_with n h`: `n` is a prefix of `h` (helper for substring
occurrence). -/
def list_starts_with : List Char → List Char → Bool
  | [], _ => true
  | _ :: _, [] => false
  | a :: as2, b :: bs => a == b && list_starts_with as2 bs

/-- `occurs_in n h`: `n` occurs contiguously in `h`. -/
def occurs_in (needle : List Char) : List Char → Bool
  | [] => needle.isEmpty
  | c :: rest => list_starts_with needle (c :: rest) || occurs_in needle rest

/-- Whether `needle` occurs as a contiguous substring of `hay`. -/
def str_occurs (needle hay : String) : Bool := occurs_in needle.data hay.data

/- Concrete fixtures used by the witnesses and counterexamples below. -/

/-- A sample transaction input. -/
def input_a : TransactionInput := ⟨[1], 0⟩

/-- A second sample transaction input. -/
def input_b : TransactionInput := ⟨[2], 1⟩

/-- A sample input whose transaction id hex (`ff`) occurs in no error
message of the resolver. -/
def input_f : TransactionInput := ⟨[255], 0⟩

/-- A resolved output carrying no datum. -/
def utxo_no_datum : MemoizedTransactionOutput := ⟨[9], [], .none, none⟩

/-- A resolved output carrying an inline datum. -/
def utxo_inline_datum : MemoizedTransactionOutput :=
  ⟨[9], [], .inline (.constr 0 []), none⟩

/-- A resolved output carrying a hash-only datum. -/
def utxo_hash_datum : MemoizedTransactionOutput := ⟨[9], [], .hash [7, 7], none⟩

/-- A zero cost budget. -/
def ex_units_zero : ExUnits := ⟨0, 0⟩

/-- A Mint-purpose redeemer. -/
def mint_red : Redeemer := ⟨.mint, 0, .array [], ex_units_zero⟩

/-- A Spend-purpose redeemer with purpose-index 0. -/
def spend_red0 : Redeemer := ⟨.spend, 0, .array [], ex_units_zero⟩

/-- A Spend-purpose redeemer with purpose-index 1. -/
def spend_red1 : Redeemer := ⟨.spend, 1, .array [], ex_units_zero⟩

/-- A transaction with one input whose resolved output has no datum. -/
def tx_one_input : MintedTx := ⟨⟨[input_a], none, []⟩, ⟨none⟩⟩

/-- The UTxO set resolving `tx_one_input`'s input to a datum-less output. -/
def utxos_no_datum : UtxoMap := [(input_a, utxo_no_datum)]

/-- A transaction with two inputs. -/
def tx_two_inputs : MintedTx := ⟨⟨[input_a, input_b], none, []⟩, ⟨none⟩⟩

/-- A UTxO set with an inline-datum output and a hash-datum output. -/
def utxos_mixed : UtxoMap :=
  [(input_a, utxo_inline_datum), (input_b, utxo_hash_datum)]

/-- A transaction with no inputs and a single Mint redeemer. -/
def tx_no_inputs : MintedTx := ⟨⟨[], none, []⟩, ⟨some [mint_red]⟩⟩

/-- A transaction with a single output, used as the decoded result of a
Blockfrost fetch. -/
def tx_one_output : MintedTx := ⟨⟨[], none, [⟨[0]⟩]⟩, ⟨none⟩⟩

/-- A transaction declaring the same reference both as a spent input and as
a reference input. -/
def tx_dup_input : MintedTx := ⟨⟨[input_a], some [input_a], []⟩, ⟨none⟩⟩

/-- A stub environment: the Blockfrost transport fails, every external
constructor fails, decoding yields `tx_no_inputs`. -/
def world_stub : World where
  transactions_cbor := fun _ => .error ["connection refused"]
  cbor_decode_tx := fun _ => .ok tx_no_inputs
  memoize := fun _ => .error "no conversion"
  tx_info_v1_new := fun _ _ _ _ => .error ["no v1 tx info"]
  script_context_v1_new := fun _ _ => .error ["no v1 context"]
  format_readable_v1 := fun _ => ""
  to_plutus_data_v1 := fun _ => .array []
  tx_info_v3_new := fun _ _ _ _ => .error ["no v3 tx info"]
  script_context_v3_new := fun _ _ _ => .error ["no v3 context"]
  tx_info_v3_format_readable := fun _ => ""
  to_plutus_data_v3 := fun _ => .array []

/-- An environment where the fetched transaction decodes fine but the
output-memoization conversion fails. -/
def world_memoize_fail : World :=
  { world_stub with
    transactions_cbor := fun _ => .ok ""
    cbor_decode_tx := fun _ => .ok tx_one_output
    memoize := fun _ => .error "conversion failed" }

/-- An environment where every fetch succeeds and resolves to
`utxo_no_datum`. -/
def world_fetch_ok : World :=
  { world_stub with
    transactions_cbor := fun _ => .ok ""
    cbor_decode_tx := fun _ => .ok tx_one_output
    memoize := fun _ => .ok utxo_no_datum }

/-- A V3 script context whose Spend redeemer points past the input list. -/
def ctx_bad_index : ScriptContextV3 :=
  ⟨⟨[]⟩, ⟨.spend, 5, .array [], ex_units_zero⟩⟩

/-- A sample minted-asset map: one asset minted, one burned, one with
quantity zero. -/
def asset_map_sample : List (Bytes × Int) := [([65], 5), ([66], -3), ([67], 0)]

/-- An input whose index (1) is out of range for `tx_one_output`. -/
def input_idx1 : TransactionInput := ⟨[3], 1⟩

/- General helper lemmas about strings and characters. -/

theorem mem_data_append {c : Char} {a b : String} :
    c ∈ (a ++ b).data ↔ c ∈ a.data ∨ c ∈ b.data := by
  rw [String.data_append, List.mem_append]

theorem mem_data_append_left {c : Char} {a : String} (b : String)
    (h : c ∈ a.data) : c ∈ (a ++ b).data :=
  mem_data_append.mpr (Or.inl h)

theorem mem_data_append_right {c : Char} (a : String) {b : String}
    (h : c ∈ b.data) : c ∈ (a ++ b).data :=
  mem_data_append.mpr (Or.inr h)

theorem no_newline_append {a b : String} (ha : '\n' ∉ a.data)
    (hb : '\n' ∉ b.data) : '\n' ∉ (a ++ b).data := by
  intro h
  rcases mem_data_append.mp h with h1 | h1
  · exact ha h1
  · exact hb h1

theorem data_head_append {a : String} (b : String) {c : Char}
    (h : a.data.head? = some c) : (a ++ b).data.head? = some c := by
  rw [String.data_append, List.head?_append, h]; rfl

theorem string_ne_of_head {s t : String} {c₁ c₂ : Char}
    (h₁ : s.data.head? = some c₁) (h₂ : t.data.head? = some c₂)
    (h : c₁ ≠ c₂) : s ≠ t := by
  intro he
  rw [he, h₂] at h₁
  exact h (Option.some.inj h₁).symm

theorem append_data_ne_nil (a b : String) (h : a.data ≠ []) :
    (a ++ b).data ≠ [] := by
  rw [String.data_append]
  intro hh
  exact h (List.append_eq_nil.mp hh).1

theorem digit_char_ne_newline (n : Nat) : Nat.digitChar n ≠ '\n' := by
  by_cases h : n < 16
  · interval_cases n <;> decide
  · simp only [Nat.digitChar, if_neg (by omega : ¬ n = 0),
      if_neg (by omega : ¬ n = 1), if_neg (by omega : ¬ n = 2),
      if_neg (by omega : ¬ n = 3), if_neg (by omega : ¬ n = 4),
      if_neg (by omega : ¬ n = 5), if_neg (by omega : ¬ n = 6),
      if_neg (by omega : ¬ n = 7), if_neg (by omega : ¬ n = 8),
      if_neg (by omega : ¬ n = 9), if_neg (by omega : ¬ n = 10),
      if_neg (by omega : ¬ n = 11), if_neg (by omega : ¬ n = 12),
      if_neg (by omega : ¬ n = 13), if_neg (by omega : ¬ n = 14),
      if_neg (by omega : ¬ n = 15)]
    decide

theorem toDigitsCore_mem (b : Nat) :
    ∀ (fuel n : Nat) (ds : List Char) (c : Char),
      c ∈ Nat.toDigitsCore b fuel n ds → c ∈ ds ∨ ∃ m, c = Nat.digitChar m := by
  intro fuel
  induction fuel with
  | zero => intro n ds c h; exact Or.inl h
  | succ fuel ih =>
    intro n ds c h
    rw [Nat.toDigitsCore] at h
    split at h
    · rcases List.mem_cons.mp h with h1 | h1
      · exact Or.inr ⟨n % b, h1⟩
      · exact Or.inl h1
    · rcases ih (n / b) (Nat.digitChar (n % b) :: ds) c h with h1 | h1
      · rcases List.mem_cons.mp h1 with h2 | h2
        · exact Or.inr ⟨n % b, h2⟩
        · exact Or.inl h2
      · exact Or.inr h1

theorem nat_toString_no_newline (n : Nat) : '\n' ∉ (toString n).data := by
  intro h
  have h2 : '\n' ∈ Nat.toDigitsCore 10 (n + 1) n [] := h
  rcases toDigitsCore_mem 10 (n + 1) n [] '\n' h2 with h3 | ⟨m, hm⟩
  · exact absurd h3 (List.not_mem_nil _)
  · exact digit_char_ne_newline m hm.symm

theorem int_toString_no_newline (i : Int) : '\n' ∉ (toString i).data := by
  cases i with
  | ofNat m => exact nat_toString_no_newline m
  | negSucc m =>
    intro h
    have h2 : '\n' ∈ (("-" : String) ++ toString (m + 1)).data := h
    rcases mem_data_append.mp h2 with h3 | h3
    · exact absurd h3 (by decide)
    · exact nat_toString_no_newline (m + 1) h3

theorem hex_encode_no_newline (bs : Bytes) : '\n' ∉ (hex_encode bs).data := by
  intro h
  have h2 : '\n' ∈ (bs.map byte_hex_chars).flatten := h
  rcases List.mem_flatten.mp h2 with ⟨l, hl, hc⟩
  rcases List.mem_map.mp hl with ⟨b, _, rfl⟩
  simp only [byte_hex_chars, List.mem_cons, List.not_mem_nil, or_false] at hc
  rcases hc with hc | hc
  · exact digit_char_ne_newline _ hc.symm
  · exact digit_char_ne_newline _ hc.symm

theorem join_sep_no_newline (sep : String) :
    ∀ (l : List String), '\n' ∉ sep.data → (∀ s ∈ l, '\n' ∉ s.data) →
      '\n' ∉ (join_sep sep l).data
  | [] => by intro _ _; exact (by decide : '\n' ∉ ("" : String).data)
  | [s] => by intro _ h; exact h s (by simp)
  | s :: t :: ts => by
    intro hsep h hmem
    rcases mem_data_append.mp hmem with h1 | h1
    · rcases mem_data_append.mp h1 with h2 | h2
      · exact h s (by simp) h2
      · exact hsep h2
    · exact join_sep_no_newline sep (t :: ts) hsep
        (fun x hx => h x (List.mem_cons_of_mem _ hx)) h1

theorem select_redeemer_oob {redeemers : List Redeemer} {idx : Nat}
    (h : redeemers.length ≤ idx) :
    select_redeemer redeemers idx =
      .error ["Invalid redeemer index " ++ toString idx ++ ". Transaction has "
        ++ toString redeemers.length ++ " redeemer(s)"] := by
  unfold select_redeemer
  rw [List.get?_eq_none.mpr h]

/-- C1 (counterexample to the claim as stated): the Datum Resolver's result
is NOT a three-state value — a Mint-purpose redeemer and a Spend-purpose
redeemer whose target output carries no datum produce the very same result
`Ok(None)`, so the "not applicable" and "absent" outcomes are
indistinguishable in `extract_datum`'s result. -/
theorem c1_counterexample :
    extract_datum tx_one_input utxos_no_datum mint_red
      = extract_datum tx_one_input utxos_no_datum spend_red0
    ∧ mint_red.tag = ScriptPurpose.mint
    ∧ spend_red0.tag = ScriptPurpose.spend
    ∧ tx_one_input.transaction_body.inputs.get? spend_red0.index = some input_a
    ∧ map_lookup utxos_no_datum input_a = some utxo_no_datum
    ∧ utxo_no_datum.datum = MemoizedDatum.none :=
  ⟨rfl, rfl, rfl, rfl, rfl, rfl⟩

/-- C1 (amended): `extract_datum` returns a two-state optional value, not a
three-state one: every redeemer whose purpose is not Spend yields
`Ok(None)`, and a Spend-purpose redeemer whose target resolved output
carries no datum also yields `Ok(None)` — the two outcomes coincide in the
resolver's result type. -/
theorem c1_datum_resolver_two_state :
    (∀ (tx : MintedTx) (utxos : UtxoMap) (r : Redeemer),
      r.tag ≠ ScriptPurpose.spend → extract_datum tx utxos r = .ok none)
    ∧ (∀ (tx : MintedTx) (utxos : UtxoMap) (r : Redeemer)
        (i : TransactionInput) (u : MemoizedTransactionOutput),
        r.tag = ScriptPurpose.spend →
        tx.transaction_body.inputs.get? r.index = some i →
        map_lookup utxos i = some u → u.datum = MemoizedDatum.none →
        extract_datum tx utxos r = .ok none) := by
  constructor
  · intro tx utxos r h
    simp [extract_datum, h]
  · intro tx utxos r i u h1 h2 h3 h4
    rw [List.get?_eq_getElem?] at h2
    simp [extract_datum, h1, h2, h3, h4]

/-- C1 witness: the amended statement evaluated at concrete inputs. -/
theorem c1_datum_resolver_two_state_witness :
    extract_datum tx_one_input utxos_no_datum mint_red = .ok none
    ∧ extract_datum tx_one_input utxos_no_datum spend_red0 = .ok none :=
  ⟨c1_datum_resolver_two_state.1 tx_one_input utxos_no_datum mint_red (by decide),
   c1_datum_resolver_two_state.2 tx_one_input utxos_no_datum spend_red0
     input_a utxo_no_datum rfl rfl rfl rfl⟩

/-- C2: for a Mint-purpose redeemer `extract_datum` yields the
"not applicable" result `Ok(None)`; for a Spend-purpose redeemer whose
target resolved output has an inline datum the result is exactly that
inline value; for a hash-only datum the result is the raw hash bytes as a
Plutus byte string. -/
theorem c2_extract_datum_values :
    (∀ (tx : MintedTx) (utxos : UtxoMap) (r : Redeemer),
      r.tag = ScriptPurpose.mint → extract_datum tx utxos r = .ok none)
    ∧ (∀ (tx : MintedTx) (utxos : UtxoMap) (r : Redeemer)
        (i : TransactionInput) (u : MemoizedTransactionOutput) (d : PlutusData),
        r.tag = ScriptPurpose.spend →
        tx.transaction_body.inputs.get? r.index = some i →
        map_lookup utxos i = some u → u.datum = MemoizedDatum.inline d →
        extract_datum tx utxos r = .ok (some d))
    ∧ (∀ (tx : MintedTx) (utxos : UtxoMap) (r : Redeemer)
        (i : TransactionInput) (u : MemoizedTransactionOutput) (h : Bytes),
        r.tag = ScriptPurpose.spend →
        tx.transaction_body.inputs.get? r.index = some i →
        map_lookup utxos i = some u → u.datum = MemoizedDatum.hash h →
        extract_datum tx utxos r = .ok (some (PlutusData.boundedBytes h))) := by
  refine ⟨?_, ?_, ?_⟩
  · intro tx utxos r h
    simp [extract_datum, h]
  · intro tx utxos r i u d h1 h2 h3 h4
    rw [List.get?_eq_getElem?] at h2
    simp [extract_datum, h1, h2, h3, h4]
  · intro tx utxos r i u h h1 h2 h3 h4
    rw [List.get?_eq_getElem?] at h2
    simp [extract_datum, h1, h2, h3, h4]

/-- C2 witness: the three cases evaluated at concrete inputs. -/
theorem c2_extract_datum_values_witness :
    extract_datum tx_two_inputs utxos_mixed mint_red = .ok none
    ∧ extract_datum tx_two_inputs utxos_mixed spend_red0
        = .ok (some (PlutusData.constr 0 []))
    ∧ extract_datum tx_two_inputs utxos_mixed spend_red1
        = .ok (some (PlutusData.boundedBytes [7, 7])) :=
  ⟨c2_extract_datum_values.1 tx_two_inputs utxos_mixed mint_red rfl,
   c2_extract_datum_values.2.1 tx_two_inputs utxos_mixed spend_red0
     input_a utxo_inline_datum (PlutusData.constr 0 []) rfl rfl rfl rfl,
   c2_extract_datum_values.2.2 tx_two_inputs utxos_mixed spend_red1
     input_b utxo_hash_datum [7, 7] rfl rfl rfl rfl⟩

/-- C3: on any transaction for which decoding, UTxO resolution and
redeemer selection succeed, requesting Plutus V2 makes the builder (and the
whole run) fail with exactly the "PlutusV2 is not yet implemented" error —
a deterministic, distinguishable message — and main emits no output. -/
theorem c3_plutus_v2_unimplemented (w : World) (tx_bytes : Bytes)
    (redeemer_idx slot : Nat) (tx : MintedTx) (utxos : UtxoMap)
    (redeemers : List Redeemer) (r : Redeemer)
    (h1 : decode_transaction w tx_bytes = .ok tx)
    (h2 : get_utxos w (collect_all_inputs tx) = .ok utxos)
    (h3 : get_redeemers tx = .ok redeemers)
    (h4 : select_redeemer redeemers redeemer_idx = .ok r) :
    run_pipeline w .plutusV2 tx_bytes redeemer_idx slot
      = .error ["PlutusV2 is not yet implemented"]
    ∧ main_output w .plutusV2 tx_bytes redeemer_idx slot = none := by
  have hrun : run_pipeline w .plutusV2 tx_bytes redeemer_idx slot
      = .error ["PlutusV2 is not yet implemented"] := by
    simp only [run_pipeline, h1, h2, h3, h4, build_script_context]
  exact ⟨hrun, by simp only [main_output, hrun]; rfl⟩

/-- C3 witness: a concrete run with version V2 fails with the
"not implemented" error and produces no output. -/
theorem c3_plutus_v2_unimplemented_witness :
    run_pipeline world_stub .plutusV2 [] 0 0
      = .error ["PlutusV2 is not yet implemented"]
    ∧ main_output world_stub .plutusV2 [] 0 0 = none :=
  c3_plutus_v2_unimplemented world_stub [] 0 0 tx_no_inputs []
    [mint_red] mint_red rfl rfl rfl rfl

/-- C4: a transaction whose witness set carries no redeemers fails with the
distinct "Transaction contains no redeemers" error; otherwise selection
works on the normalized list and fails exactly when the index is at least
the number of normalized redeemers, with an error reporting both the
requested index and the available count; the two error messages are
distinct for every index and count. -/
theorem c4_redeemer_selection_errors :
    (∀ tx : MintedTx, tx.transaction_witness_set.redeemer = none →
      get_redeemers tx = .error ["Transaction contains no redeemers"])
    ∧ (∀ (tx : MintedTx) (rs : List Redeemer),
        tx.transaction_witness_set.redeemer = some rs →
        get_redeemers tx = .ok (normalize_redeemers rs))
    ∧ (∀ (redeemers : List Redeemer) (idx : Nat),
        (∃ e, select_redeemer redeemers idx = .error e) ↔ redeemers.length ≤ idx)
    ∧ (∀ (redeemers : List Redeemer) (idx : Nat), redeemers.length ≤ idx →
        select_redeemer redeemers idx =
          .error ["Invalid redeemer index " ++ toString idx
            ++ ". Transaction has " ++ toString redeemers.length ++ " redeemer(s)"])
    ∧ (∀ (idx n : Nat),
        ("Invalid redeemer index " ++ toString idx ++ ". Transaction has "
          ++ toString n ++ " redeemer(s)") ≠ "Transaction contains no redeemers") := by
  refine ⟨?_, ?_, ?_, ?_, ?_⟩
  · intro tx h; simp [get_redeemers, h]
  · intro tx rs h; simp [get_redeemers, h]
  · intro redeemers idx
    constructor
    · rintro ⟨e, he⟩
      by_contra hlt
      push_neg at hlt
      unfold select_redeemer at he
      rw [List.get?_eq_get hlt] at he
      exact Except.noConfusion he
    · intro hle
      exact ⟨_, select_redeemer_oob hle⟩
  · intro redeemers idx h
    exact select_redeemer_oob h
  · intro idx n
    apply string_ne_of_head
      (data_head_append _ (data_head_append _ (data_head_append _
        (data_head_append _ (by decide : ("Invalid redeemer index " : String).data.head?
          = some 'I')))))
      (by decide : ("Transaction contains no redeemers" : String).data.head? = some 'T')
    decide

/-- C4 witness: the no-redeemers error, a successful normalization, the
out-of-bounds error for index 5 on a 2-redeemer transaction (reporting
"requested 5, available 2"), and the distinctness of the two messages. -/
theorem c4_redeemer_selection_errors_witness :
    get_redeemers tx_one_input = .error ["Transaction contains no redeemers"]
    ∧ get_redeemers tx_no_inputs = .ok [mint_red]
    ∧ select_redeemer [spend_red0, mint_red] 5
        = .error ["Invalid redeemer index 5. Transaction has 2 redeemer(s)"]
    ∧ ("Invalid redeemer index " ++ toString 5 ++ ". Transaction has "
        ++ toString 2 ++ " redeemer(s)") ≠ "Transaction contains no redeemers" := by
  refine ⟨c4_redeemer_selection_errors.1 tx_one_input rfl, ?_, ?_,
    c4_redeemer_selection_errors.2.2.2.2 5 2⟩
  · rw [c4_redeemer_selection_errors.2.1 tx_no_inputs [mint_red] rfl]
    exact rfl
  · rw [c4_redeemer_selection_errors.2.2.2.1 [spend_red0, mint_red] 5 (by decide)]
    exact congrArg Except.error (by decide)

theorem occurs_in_nil_needle : ∀ (l : List Char), occurs_in [] l = true
  | [] => rfl
  | _ :: _ => by simp [occurs_in, list_starts_with]

theorem list_starts_with_self_append : ∀ (n post : List Char),
    list_starts_with n (n ++ post) = true
  | [], _ => rfl
  | c :: cs, post => by
    simp [list_starts_with, list_starts_with_self_append cs post]

theorem occurs_in_pre_post : ∀ (pre n post : List Char),
    occurs_in n (pre ++ (n ++ post)) = true
  | [], n, post => by
    cases n with
    | nil => exact occurs_in_nil_needle _
    | cons c cs =>
      have h := list_starts_with_self_append (c :: cs) post
      simp only [List.nil_append, occurs_in, Bool.or_eq_true]
      exact Or.inl h
  | p :: ps, n, post => by
    simp [occurs_in, occurs_in_pre_post ps n post]

theorem str_occurs_of_data (n hay : String) (pre post : List Char)
    (h : hay.data = pre ++ (n.data ++ post)) : str_occurs n hay = true := by
  unfold str_occurs
  rw [h]
  exact occurs_in_pre_post _ _ _

theorem str_occurs_append_right (pre n : String) :
    str_occurs n (pre ++ n) = true :=
  str_occurs_of_data n (pre ++ n) pre.data []
    (by rw [String.data_append, List.append_nil])

theorem fetch_utxo_ok_fst (w : World) (i : TransactionInput)
    (p : TransactionInput × MemoizedTransactionOutput)
    (h : fetch_utxo w i = .ok p) : p.1 = i := by
  simp only [fetch_utxo] at h
  repeat' split at h
  all_goals cases h
  rfl

theorem try_join_map_fst (w : World) :
    ∀ (inputs : List TransactionInput) (rs : List (TransactionInput × MemoizedTransactionOutput)),
      try_join_all_fetch w inputs = .ok rs → rs.map Prod.fst = inputs := by
  intro inputs
  induction inputs with
  | nil =>
    intro rs h
    unfold try_join_all_fetch at h
    cases h
    rfl
  | cons i rest ih =>
    intro rs h
    unfold try_join_all_fetch at h
    split at h
    · exact Except.noConfusion h
    · rename_i p hp
      split at h
      · exact Except.noConfusion h
      · rename_i ps hps
        cases h
        simp [List.map_cons, fetch_utxo_ok_fst w i p hp, ih ps hps]

theorem try_join_error_of_mem (w : World) :
    ∀ (inputs : List TransactionInput) (i : TransactionInput) (e : Err),
      i ∈ inputs → fetch_utxo w i = .error e →
      ∃ e2, try_join_all_fetch w inputs = .error e2 := by
  intro inputs
  induction inputs with
  | nil => intro i e h _; exact absurd h (List.not_mem_nil i)
  | cons j rest ih =>
    intro i e hmem hf
    cases hfj : fetch_utxo w j with
    | error e2 => exact ⟨e2, by unfold try_join_all_fetch; rw [hfj]⟩
    | ok p =>
      rcases List.mem_cons.mp hmem with rfl | hmem2
      · rw [hf] at hfj; exact Except.noConfusion hfj
      · obtain ⟨e2, h2⟩ := ih i e hmem2 hf
        exact ⟨e2, by unfold try_join_all_fetch; rw [hfj, h2]⟩

theorem try_join_error_attrib (w : World) :
    ∀ (inputs : List TransactionInput) (e : Err),
      try_join_all_fetch w inputs = .error e →
      ∃ i ∈ inputs, fetch_utxo w i = .error e := by
  intro inputs
  induction inputs with
  | nil =>
    intro e h
    unfold try_join_all_fetch at h
    exact Except.noConfusion h
  | cons j rest ih =>
    intro e h
    unfold try_join_all_fetch at h
    split at h
    · rename_i e2 hfj
      cases h
      exact ⟨j, List.mem_cons_self j rest, hfj⟩
    · rename_i p hp
      split at h
      · rename_i e2 hrest
        cases h
        obtain ⟨i, hmem, hf⟩ := ih e hrest
        exact ⟨i, List.mem_cons_of_mem j hmem, hf⟩
      · exact Except.noConfusion h

theorem fetch_error_mentions (w : World) (i : TransactionInput) (e : Err)
    (h : fetch_utxo w i = .error e) :
    (∃ msg ∈ e, str_occurs (hex_encode i.transaction_id) msg = true)
    ∨ ∃ s, e = ["Failed to convert output to memoized format: " ++ s] := by
  simp only [fetch_utxo] at h
  repeat' split at h
  all_goals cases h
  · exact Or.inl ⟨_, List.mem_cons_self _ _, str_occurs_append_right _ _⟩
  · exact Or.inl ⟨_, List.mem_cons_self _ _, str_occurs_append_right _ _⟩
  · exact Or.inl ⟨_, List.mem_cons_self _ _, str_occurs_append_right _ _⟩
  · rename_i transaction _ _ _
    exact Or.inl ⟨_, List.mem_cons_self _ _,
      str_occurs_of_data _ _
        ("Invalid output index " ++ toString i.index ++ " for transaction ").data
        ((". Transaction has "
          ++ toString transaction.transaction_body.outputs.length ++ " output(s)")).data
        (by simp [String.data_append, List.append_assoc])⟩
  · exact Or.inr ⟨_, rfl⟩

theorem map_keys_insert (m : UtxoMap) (k : TransactionInput)
    (v : MemoizedTransactionOutput) (a : TransactionInput) :
    a ∈ map_keys (map_insert m k v) ↔ a ∈ map_keys m ∨ a = k := by
  unfold map_insert map_keys
  split
  · rename_i hmem
    have hkeys : (m.map fun p => if p.1 = k then (k, v) else p).map Prod.fst
        = m.map Prod.fst := by
      rw [List.map_map]
      apply List.map_congr_left
      intro p _
      by_cases hp : p.1 = k
      · simp [hp]
      · simp [hp]
    rw [hkeys]
    constructor
    · exact Or.inl
    · rintro (h1 | rfl)
      · exact h1
      · exact hmem
  · rw [List.map_append]
    simp

theorem map_keys_insert_nodup (m : UtxoMap) (k : TransactionInput)
    (v : MemoizedTransactionOutput) (h : (map_keys m).Nodup) :
    (map_keys (map_insert m k v)).Nodup := by
  unfold map_insert map_keys
  split
  · rename_i hmem
    have hkeys : (m.map fun p => if p.1 = k then (k, v) else p).map Prod.fst
        = m.map Prod.fst := by
      rw [List.map_map]
      apply List.map_congr_left
      intro p _
      by_cases hp : p.1 = k
      · simp [hp]
      · simp [hp]
    rw [hkeys]
    exact h
  · rename_i hmem
    rw [List.map_append]
    rw [List.nodup_append]
    refine ⟨h, by simp, ?_⟩
    intro a ha
    simp only [List.map_cons, List.map_nil, List.mem_singleton]
    intro hak
    subst hak
    exact hmem ha

theorem map_from_list_spec :
    ∀ (l : List (TransactionInput × MemoizedTransactionOutput)) (m0 : UtxoMap),
      (map_keys m0).Nodup →
      (map_keys (l.foldl (fun m p => map_insert m p.1 p.2) m0)).Nodup
      ∧ ∀ a, a ∈ map_keys (l.foldl (fun m p => map_insert m p.1 p.2) m0)
          ↔ a ∈ map_keys m0 ∨ a ∈ l.map Prod.fst := by
  intro l
  induction l with
  | nil => intro m0 h; exact ⟨h, by simp⟩
  | cons p rest ih =>
    intro m0 h
    have h1 := map_keys_insert_nodup m0 p.1 p.2 h
    obtain ⟨hn, hm⟩ := ih (map_insert m0 p.1 p.2) h1
    refine ⟨hn, fun a => ?_⟩
    rw [List.foldl_cons, hm a, map_keys_insert]
    simp only [List.map_cons, List.mem_cons]
    tauto

/-- C5 (counterexample to the claim as stated): when the external
output-memoization conversion fails, `get_utxos` fails (atomically) but its
error carries neither the failing input reference's transaction id (hex
`ff`) nor its index — "the failure carries which input reference failed"
does not hold for this failure mode. -/
theorem c5_counterexample :
    get_utxos world_memoize_fail [input_f]
      = .error ["Failed to fetch UTxOs from Blockfrost",
          "Failed to convert output to memoized format: conversion failed"]
    ∧ (∀ msg ∈ (["Failed to fetch UTxOs from Blockfrost",
          "Failed to convert output to memoized format: conversion failed"] : Err),
        str_occurs (hex_encode input_f.transaction_id) msg = false
        ∧ str_occurs (toString input_f.index) msg = false) := by
  refine ⟨rfl, ?_⟩
  decide

/-- C5 (amended): the Output Resolver is atomic and fail-fast — if any
single lookup fails, `get_utxos` fails and returns no map at all, and the
error wraps the failing lookup's own error chain; that chain names the
failing input's transaction id in every failure mode except the
output-conversion failure, which carries only the conversion cause. -/
theorem c5_get_utxos_fail_fast (w : World) (inputs : List TransactionInput) :
    ((∃ i ∈ inputs, ∃ e, fetch_utxo w i = .error e) →
      ∀ m, get_utxos w inputs ≠ .ok m)
    ∧ (∀ e, get_utxos w inputs = .error e →
        ∃ i ∈ inputs, ∃ e2, fetch_utxo w i = .error e2
          ∧ e = "Failed to fetch UTxOs from Blockfrost" :: e2)
    ∧ (∀ (i : TransactionInput) (e2 : Err), fetch_utxo w i = .error e2 →
        (∃ msg ∈ e2, str_occurs (hex_encode i.transaction_id) msg = true)
        ∨ ∃ s, e2 = ["Failed to convert output to memoized format: " ++ s]) := by
  refine ⟨?_, ?_, ?_⟩
  · rintro ⟨i, hmem, e, hf⟩ m hok
    obtain ⟨e2, hj⟩ := try_join_error_of_mem w inputs i e hmem hf
    unfold get_utxos at hok
    rw [hj] at hok
    exact Except.noConfusion hok
  · intro e h
    unfold get_utxos at h
    split at h
    · rename_i e2 hj
      cases h
      obtain ⟨i, hmem, hf⟩ := try_join_error_attrib w inputs e2 hj
      exact ⟨i, hmem, e2, hf, rfl⟩
    · exact Except.noConfusion h
  · intro i e2 hf
    exact fetch_error_mentions w i e2 hf

/-- C5 witness: a concrete failing batch — the whole operation fails, no
map is returned, and the error is attributed to the failing input. -/
theorem c5_get_utxos_fail_fast_witness :
    get_utxos world_stub [input_f] ≠ .ok []
    ∧ (∃ i ∈ [input_f], ∃ e2, fetch_utxo world_stub i = .error e2
        ∧ ("Failed to fetch UTxOs from Blockfrost"
            :: ("Failed to fetch transaction " ++ hex_encode input_f.transaction_id)
            :: ["connection refused"] : Err)
          = "Failed to fetch UTxOs from Blockfrost" :: e2)
    ∧ ((∃ msg ∈ (("Failed to fetch transaction "
            ++ hex_encode input_f.transaction_id) :: ["connection refused"] : Err),
          str_occurs (hex_encode input_f.transaction_id) msg = true)
        ∨ ∃ s, (("Failed to fetch transaction "
            ++ hex_encode input_f.transaction_id) :: ["connection refused"] : Err)
          = ["Failed to convert output to memoized format: " ++ s]) :=
  ⟨(c5_get_utxos_fail_fast world_stub [input_f]).1
      ⟨input_f, by simp,
        ("Failed to fetch transaction " ++ hex_encode input_f.transaction_id)
          :: ["connection refused"], rfl⟩ [],
   (c5_get_utxos_fail_fast world_stub [input_f]).2.1 _ rfl,
   (c5_get_utxos_fail_fast world_stub [input_f]).2.2 input_f _ rfl⟩

/-- C6 (counterexample to the claim as stated): a transaction that declares
the same reference as both a spent input and a reference input reaches the
Output Resolver with a duplicated list, and `get_utxos` issues one
resolution request per occurrence (two requests here), not one per
distinct reference (one). -/
theorem c6_counterexample :
    collect_all_inputs tx_dup_input = [input_a, input_a]
    ∧ (get_utxos_requests (collect_all_inputs tx_dup_input)).length = 2
    ∧ (collect_all_inputs tx_dup_input).dedup.length = 1 := by
  refine ⟨rfl, rfl, by decide⟩

/-- C6 (amended): when `get_utxos` succeeds its result map's key set equals
the set of distinct input references exactly (no extras, no omissions, no
duplicate keys) — duplicates collapse in the map —, but one resolution
request is issued per list element, not per distinct reference. -/
theorem c6_utxo_keyset (w : World) (inputs : List TransactionInput)
    (m : UtxoMap) (h : get_utxos w inputs = .ok m) :
    ((map_keys m).Nodup ∧ (∀ k, k ∈ map_keys m ↔ k ∈ inputs))
    ∧ (get_utxos_requests inputs).length = inputs.length := by
  constructor
  · unfold get_utxos at h
    split at h
    · exact Except.noConfusion h
    · rename_i results hj
      cases h
      have hfst := try_join_map_fst w inputs results hj
      obtain ⟨hn, hm⟩ := map_from_list_spec results [] (by simp [map_keys])
      refine ⟨hn, fun k => ?_⟩
      have hk := hm k
      rw [hfst] at hk
      simp only [map_keys, List.map_nil, List.not_mem_nil, false_or] at hk
      exact hk
  · simp [get_utxos_requests]

/-- C6 witness: a successful one-element resolution whose key set is
exactly the input set. -/
theorem c6_utxo_keyset_witness :
    get_utxos world_fetch_ok [input_a] = .ok [(input_a, utxo_no_datum)]
    ∧ (map_keys [(input_a, utxo_no_datum)]).Nodup
    ∧ (input_a ∈ map_keys [(input_a, utxo_no_datum)] ↔ input_a ∈ [input_a])
    ∧ (get_utxos_requests [input_a]).length = [input_a].length := by
  have h : get_utxos world_fetch_ok [input_a] = .ok [(input_a, utxo_no_datum)] := rfl
  have h2 := c6_utxo_keyset world_fetch_ok [input_a] [(input_a, utxo_no_datum)] h
  exact ⟨h, h2.1.1, h2.1.2 input_a, h2.2⟩

/-- C7: when the referenced transaction is fetched and decoded but the
input's output index is out of range, `fetch_utxo` fails with an error that
reports the index and the transaction's actual output count, and that error
message is distinct from the "transaction not found" message for every
possible suffix. -/
theorem c7_out_of_range_output_index (w : World) (input : TransactionInput)
    (response : String) (bs : Bytes) (ftx : MintedTx)
    (h1 : w.transactions_cbor (hex_encode input.transaction_id) = .ok response)
    (h2 : hex_decode response = some bs)
    (h3 : w.cbor_decode_tx bs = .ok ftx)
    (h4 : ftx.transaction_body.outputs.length ≤ input.index) :
    fetch_utxo w input =
      .error ["Invalid output index " ++ toString input.index
        ++ " for transaction " ++ hex_encode input.transaction_id
        ++ ". Transaction has "
        ++ toString ftx.transaction_body.outputs.length ++ " output(s)"]
    ∧ ∀ (s : String),
        ("Invalid output index " ++ toString input.index
          ++ " for transaction " ++ hex_encode input.transaction_id
          ++ ". Transaction has "
          ++ toString ftx.transaction_body.outputs.length ++ " output(s)")
        ≠ "Failed to fetch transaction " ++ s := by
  constructor
  · simp only [fetch_utxo, h1, h2, h3, List.get?_eq_none.mpr h4]
  · intro s
    apply string_ne_of_head
      (data_head_append _ (data_head_append _ (data_head_append _
        (data_head_append _ (data_head_append _
          (by decide : ("Invalid output index " : String).data.head? = some 'I'))))))
      (data_head_append _
        (by decide : ("Failed to fetch transaction " : String).data.head? = some 'F'))
    decide

/-- C7 witness: index 1 against a one-output transaction. -/
theorem c7_out_of_range_output_index_witness :
    fetch_utxo world_fetch_ok input_idx1
      = .error ["Invalid output index 1 for transaction 03. Transaction has 1 output(s)"]
    ∧ ("Invalid output index " ++ toString input_idx1.index
        ++ " for transaction " ++ hex_encode input_idx1.transaction_id
        ++ ". Transaction has "
        ++ toString tx_one_output.transaction_body.outputs.length ++ " output(s)")
      ≠ "Failed to fetch transaction " ++ "03" := by
  have h := c7_out_of_range_output_index world_fetch_ok input_idx1 "" []
    tx_one_output rfl rfl rfl (by decide)
  refine ⟨?_, h.2 "03"⟩
  rw [h.1]
  exact congrArg Except.error (by decide)

theorem fpd_constr_nil (tag : Nat) (ind : Nat) :
    format_plutus_data (.constr tag []) ind
      = "Constr(" ++ toString tag ++ ", [])" := rfl

theorem fpd_constr_cons (tag : Nat) (f : PlutusData) (rest : List PlutusData)
    (ind : Nat) :
    format_plutus_data (.constr tag (f :: rest)) ind =
      if rest.isEmpty && is_simple f then
        "Constr(" ++ toString tag ++ ", [" ++ format_plutus_data f 0 ++ "])"
      else
        "Constr(" ++ toString tag ++ ", [\n"
          ++ join_sep ",\n" ((format_fields (f :: rest) (ind + 1)).map
              (fun s => str_repeat "  " (ind + 1) ++ s))
          ++ "\n" ++ str_repeat "  " ind ++ "])" := rfl

theorem fpd_map_nil (ind : Nat) :
    format_plutus_data (.map []) ind = "Map(\x7b\x7d)" := rfl

theorem fpd_map_cons (p : PlutusData × PlutusData)
    (rest : List (PlutusData × PlutusData)) (ind : Nat) :
    format_plutus_data (.map (p :: rest)) ind =
      if rest.isEmpty && (is_simple p.1 && is_simple p.2) then
        "Map(\x7b " ++ format_plutus_data p.1 0 ++ " => "
          ++ format_plutus_data p.2 0 ++ " \x7d)"
      else
        "Map(\x7b\n"
          ++ join_sep ",\n" ((format_pairs (p :: rest) (ind + 1)).map
              (fun q => str_repeat "  " (ind + 1) ++ q.1 ++ " =>\n"
                ++ str_repeat "  " (ind + 1) ++ q.2))
          ++ "\n" ++ str_repeat "  " ind ++ "\x7d)" := rfl

theorem fpd_array_nil (ind : Nat) : format_plutus_data (.array []) ind = "[]" := rfl

theorem fpd_array_cons (a : PlutusData) (rest : List PlutusData) (ind : Nat) :
    format_plutus_data (.array (a :: rest)) ind =
      if decide ((a :: rest).length ≤ 3) && (a :: rest).all is_simple then
        "[" ++ join_sep ", " (format_fields (a :: rest) 0) ++ "]"
      else
        "[\n"
          ++ join_sep ",\n" ((format_fields (a :: rest) (ind + 1)).map
              (fun s => str_repeat "  " (ind + 1) ++ s))
          ++ "\n" ++ str_repeat "  " ind ++ "]" := rfl

theorem fpd_bigInt (i : BigIntD) (ind : Nat) :
    format_plutus_data (.bigInt i) ind = format_big_int i := rfl

theorem fpd_bytes (bs : Bytes) (ind : Nat) :
    format_plutus_data (.boundedBytes bs) ind
      = "Bytes(0x" ++ hex_encode bs ++ ")" := rfl

theorem format_fields_eq : ∀ (l : List PlutusData) (ind : Nat),
    format_fields l ind = l.map (fun x => format_plutus_data x ind)
  | [], _ => rfl
  | x :: xs, ind => by
    show format_plutus_data x ind :: format_fields xs ind = _
    rw [format_fields_eq xs ind]
    rfl

theorem big_int_no_newline (i : BigIntD) : '\n' ∉ (format_big_int i).data := by
  cases i with
  | int n =>
    exact no_newline_append
      (no_newline_append (by decide) (int_toString_no_newline n)) (by decide)
  | bigUInt bs =>
    exact no_newline_append
      (no_newline_append (by decide) (hex_encode_no_newline bs)) (by decide)
  | bigNInt bs =>
    exact no_newline_append
      (no_newline_append (by decide) (hex_encode_no_newline bs)) (by decide)

theorem simple_no_newline : ∀ (d : PlutusData), is_simple d = true →
    ∀ ind, '\n' ∉ (format_plutus_data d ind).data := by
  intro d h ind
  cases d with
  | constr tag fields =>
    cases fields with
    | nil =>
      rw [fpd_constr_nil]
      exact no_newline_append
        (no_newline_append (by decide) (nat_toString_no_newline tag)) (by decide)
    | cons f rest => simp [is_simple] at h
  | map pairs =>
    cases pairs with
    | nil => rw [fpd_map_nil]; decide
    | cons p rest => simp [is_simple] at h
  | array arr =>
    cases arr with
    | nil => rw [fpd_array_nil]; decide
    | cons a rest => simp [is_simple] at h
  | bigInt i => rw [fpd_bigInt]; exact big_int_no_newline i
  | boundedBytes bs =>
    rw [fpd_bytes]
    exact no_newline_append
      (no_newline_append (by decide) (hex_encode_no_newline bs)) (by decide)

/-- C8 (counterexample to the claim as stated): a two-element array of leaf
integers is neither empty, nor a single-field constructor, nor a
single-pair map, yet it renders inline on one line (no newline), not
multi-line as the claim requires of "every other node". -/
theorem c8_counterexample :
    format_plutus_data (.array [.bigInt (.int 1), .bigInt (.int 2)]) 0
      = "[Int(1), Int(2)]"
    ∧ '\n' ∉ (format_plutus_data (.array [.bigInt (.int 1), .bigInt (.int 2)]) 0).data :=
  ⟨rfl, by decide⟩

/-- C8 (amended): `format_plutus_data` renders a node without any newline
exactly when the node is a leaf integer/byte-string, an empty
constructor/map/array, a single-field constructor whose field is simple, a
single-pair map whose key and value are both simple, or an array of at
most three elements that are all simple; every other node renders
multi-line (its rendering contains a newline, with children rendered at
one deeper indentation level). -/
theorem c8_compactness_characterization (d : PlutusData) (ind : Nat) :
    ('\n' ∉ (format_plutus_data d ind).data) ↔ inline_form d = true := by
  cases d with
  | bigInt i =>
    exact ⟨fun _ => rfl, fun _ => simple_no_newline (.bigInt i) rfl ind⟩
  | boundedBytes bs =>
    exact ⟨fun _ => rfl, fun _ => simple_no_newline (.boundedBytes bs) rfl ind⟩
  | constr tag fields =>
    cases fields with
    | nil =>
      exact ⟨fun _ => rfl, fun _ => simple_no_newline (.constr tag []) rfl ind⟩
    | cons f rest =>
      rw [fpd_constr_cons]
      by_cases hc : (rest.isEmpty && is_simple f) = true
      · rw [if_pos hc]
        simp only [Bool.and_eq_true] at hc
        obtain ⟨he, hs⟩ := hc
        have he2 : rest = [] := List.isEmpty_iff.mp he
        subst he2
        constructor
        · intro _
          simp [inline_form, hs]
        · intro _
          exact no_newline_append (no_newline_append (no_newline_append
            (no_newline_append (by decide) (nat_toString_no_newline tag))
            (by decide)) (simple_no_newline f hs 0)) (by decide)
      · rw [if_neg hc]
        constructor
        · intro hnl
          exact absurd (mem_data_append_left _ (mem_data_append_left _
            (mem_data_append_right _ (by decide)))) hnl
        · intro hif
          exfalso
          cases rest with
          | nil =>
            simp only [inline_form] at hif
            exact hc (by simp [hif])
          | cons y ys => simp [inline_form] at hif
  | map pairs =>
    cases pairs with
    | nil =>
      exact ⟨fun _ => rfl, fun _ => simple_no_newline (.map []) rfl ind⟩
    | cons p rest =>
      rw [fpd_map_cons]
      by_cases hc : (rest.isEmpty && (is_simple p.1 && is_simple p.2)) = true
      · rw [if_pos hc]
        simp only [Bool.and_eq_true] at hc
        obtain ⟨he, hs1, hs2⟩ := hc
        have he2 : rest = [] := List.isEmpty_iff.mp he
        subst he2
        constructor
        · intro _
          simp [inline_form, hs1, hs2]
        · intro _
          exact no_newline_append (no_newline_append (no_newline_append
            (no_newline_append (by decide) (simple_no_newline p.1 hs1 0))
            (by decide)) (simple_no_newline p.2 hs2 0)) (by decide)
      · rw [if_neg hc]
        constructor
        · intro hnl
          exact absurd (mem_data_append_left _ (mem_data_append_left _
            (mem_data_append_right _ (by decide)))) hnl
        · intro hif
          exfalso
          cases rest with
          | nil =>
            simp only [inline_form] at hif
            exact hc (by simp [hif])
          | cons y ys => simp [inline_form] at hif
  | array arr =>
    cases arr with
    | nil =>
      exact ⟨fun _ => by decide, fun _ => by rw [fpd_array_nil]; decide⟩
    | cons a rest =>
      rw [fpd_array_cons]
      by_cases hc : (decide ((a :: rest).length ≤ 3) && (a :: rest).all is_simple) = true
      · rw [if_pos hc]
        constructor
        · intro _
          exact hc
        · intro _
          simp only [Bool.and_eq_true] at hc
          obtain ⟨_, hall⟩ := hc
          refine no_newline_append (no_newline_append (by decide) ?_) (by decide)
          apply join_sep_no_newline _ _ (by decide)
          intro s hmem
          rw [format_fields_eq] at hmem
          rcases List.mem_map.mp hmem with ⟨x, hx, rfl⟩
          exact simple_no_newline x (List.all_eq_true.mp hall x hx) 0
      · rw [if_neg hc]
        constructor
        · intro hnl
          exact absurd (mem_data_append_left _ (mem_data_append_left _
            (mem_data_append_right _ (by decide)))) hnl
        · intro hif
          exact absurd hif hc

/-- C9: `format_script_info` is total and never renders an empty string,
and when the Spend redeemer's purpose-index is out of range for the
context's input list it renders the "Invalid index N" placeholder instead
of failing. -/
theorem c9_format_script_info_total (ctx : ScriptContextV3) :
    (format_script_info ctx).data ≠ []
    ∧ (ctx.redeemer.tag = ScriptPurpose.spend →
        ctx.tx_info.inputs.length ≤ ctx.redeemer.index →
        format_script_info ctx =
          "  Type: Spending\n  Input: Invalid index "
            ++ toString ctx.redeemer.index ++ "\n") := by
  constructor
  · unfold format_script_info
    split
    · split
      · exact append_data_ne_nil _ _ (append_data_ne_nil _ _ (by decide))
      · exact append_data_ne_nil _ _ (append_data_ne_nil _ _ (by decide))
    · exact append_data_ne_nil _ _ (append_data_ne_nil _ _ (by decide))
    · exact append_data_ne_nil _ _ (append_data_ne_nil _ _ (by decide))
    · exact append_data_ne_nil _ _ (append_data_ne_nil _ _ (by decide))
    · exact (by decide : ("  Type: Unknown\n" : String).data ≠ [])
  · intro h1 h2
    simp only [format_script_info, h1, List.get?_eq_none.mpr h2]

/-- C9 witness: a context whose Spend redeemer points at index 5 of an
empty input list renders the placeholder. -/
theorem c9_format_script_info_total_witness :
    (format_script_info ctx_bad_index).data ≠ []
    ∧ format_script_info ctx_bad_index
        = "  Type: Spending\n  Input: Invalid index 5\n" := by
  have h := c9_format_script_info_total ctx_bad_index
  refine ⟨h.1, ?_⟩
  rw [h.2 rfl (by decide)]
  decide

/-- C10: in the minted-assets report, an asset belongs to the rendered
"Minting" sub-list of its policy exactly when its quantity is strictly
positive, to the "Burning" sub-list exactly when its quantity is strictly
negative, and to neither when it is zero; and a minting entry renders with
its leading `+`. -/
theorem c10_mint_report_partition :
    (∀ (asset_map : List (Bytes × Int)) (a : Bytes) (amt : Int),
      (a, amt) ∈ asset_map →
        (((a, amt) ∈ minting_assets asset_map ↔ 0 < amt)
          ∧ ((a, amt) ∈ burning_assets asset_map ↔ amt < 0)
          ∧ (amt = 0 → (a, amt) ∉ minting_assets asset_map
              ∧ (a, amt) ∉ burning_assets asset_map)))
    ∧ (∀ (ph : Bytes) (a : Bytes) (amt : Int), 0 < amt →
        mint_policy_block (ph, [(a, amt)]) =
          "  Policy: " ++ hex_encode ph ++ "\n" ++ "    Minting:\n"
            ++ "      " ++ asset_name_format_readable a ++ ": +"
            ++ toString amt ++ "\n") := by
  constructor
  · intro asset_map a amt hmem
    refine ⟨?_, ?_, ?_⟩
    · simp [minting_assets, List.mem_filter, hmem]
    · simp [burning_assets, List.mem_filter, hmem]
    · intro h0
      subst h0
      simp [minting_assets, burning_assets, List.mem_filter]
  · intro ph a amt h
    have hm : minting_assets [(a, amt)] = [(a, amt)] := by
      simp [minting_assets, List.filter, h]
    have hb : burning_assets [(a, amt)] = [] := by
      have h2 : ¬ (amt < 0) := by omega
      simp [burning_assets, List.filter, h2]
    simp only [mint_policy_block, hm, hb, List.isEmpty_cons, List.isEmpty_nil,
      Bool.false_eq_true, if_false, if_true, List.map_cons, List.map_nil,
      String.join, List.foldl_cons, List.foldl_nil, mint_asset_line_minting]
    apply String.ext
    simp [String.data_append, List.append_assoc]

/-- C10 witness: the partition and the rendered minting line evaluated at
a concrete asset map. -/
theorem c10_mint_report_partition_witness :
    (([65], (5 : Int)) ∈ minting_assets asset_map_sample ↔ (0 : Int) < 5)
    ∧ (([66], (-3 : Int)) ∈ burning_assets asset_map_sample ↔ (-3 : Int) < 0)
    ∧ (([67], (0 : Int)) ∉ minting_assets asset_map_sample
        ∧ ([67], (0 : Int)) ∉ burning_assets asset_map_sample)
    ∧ mint_policy_block ([202], [([65], 5)])
        = "  Policy: ca\n    Minting:\n      A: +5\n" := by
  refine ⟨(c10_mint_report_partition.1 asset_map_sample [65] 5 (by decide)).1,
    (c10_mint_report_partition.1 asset_map_sample [66] (-3) (by decide)).2.1,
    (c10_mint_report_partition.1 asset_map_sample [67] 0 (by decide)).2.2 rfl, ?_⟩
  rw [c10_mint_report_partition.2 [202] [65] 5 (by decide)]
  decide

end Nawi
